import Mathlib

/-!
Verification of the webcam-wave frame-processing pipeline.

The source is a TypeScript/JavaScript program built around `GreyscaleImage`
(a `Uint8ClampedArray` of 8-bit samples with in-place per-pixel operations)
and `TransitionCountingImage` (a per-pixel transition-counting state machine).
This file gives a shallow embedding of those operations and proves or refutes
the frozen specification claims about them.

JavaScript semantics modelled explicitly:
* writes to a `Uint8ClampedArray` clamp to `[0, 255]` and round non-integral
  values to the nearest integer with ties to even (`jsClampInt`, `jsClampRound`);
  writing `NaN` (the result of arithmetic on an out-of-bounds `undefined` read)
  stores `0`;
* out-of-bounds array reads yield `undefined`, which compares unequal to every
  number and poisons arithmetic to `NaN`; reads are therefore `Option ℕ`
  where that matters (`readPix`, the `TransitionCountingImage.update` source read);
* numeric parameters coming from `input.valueAsNumber` are modelled as `ℚ`
  (exact where the doubles in play are exact), integer-valued thresholds as `ℤ`.
-/

/-- Storing an integer into a `Uint8ClampedArray` slot: clamp to `[0, 255]`. -/
def jsClampInt (x : ℤ) : ℕ := (max 0 (min x 255)).toNat

/-- Round a rational to the nearest integer, ties to even — the rounding a
`Uint8ClampedArray` store applies to a non-integral number. -/
def roundHalfEven (x : ℚ) : ℤ :=
  if Int.fract x < 1/2 then ⌊x⌋
  else if 1/2 < Int.fract x then ⌊x⌋ + 1
  else if 2 ∣ ⌊x⌋ then ⌊x⌋ else ⌊x⌋ + 1

/-- Storing a rational into a `Uint8ClampedArray` slot: round to nearest
(ties to even) and clamp to `[0, 255]`. -/
def jsClampRound (x : ℚ) : ℕ := (max 0 (min (roundHalfEven x) 255)).toNat

/-- The RGBA byte buffer obtained from `context.getImageData`: `data` lists the
bytes `R,G,B,A,R,G,B,A,...`, row-major, `4 * width * height` of them. -/
structure ColorFrame where
  width : ℕ
  height : ℕ
  data : List ℕ
deriving DecidableEq

/-- An 8-bit image: `width × height` samples, row-major, each in `[0, 255]`
(class `GreyscaleImage` in the source; its `data` is a `Uint8ClampedArray`). -/
structure GreyscaleImage where
  width : ℕ
  height : ℕ
  data : List ℕ
deriving DecidableEq

namespace GreyscaleImage

/-- `GreyscaleImage.read`: after `_setSize` to the canvas dimensions, each
sample becomes the store of `(R + G + B) / 3` (JavaScript float division, then
the clamped-array round-to-nearest store). Alpha (`4*i + 3`) is never read.
The resize plus the full loop overwrite every sample, so the result depends
only on the colour frame. -/
def read (cf : ColorFrame) : GreyscaleImage :=
  ⟨cf.width, cf.height, (List.range (cf.width * cf.height)).map fun i =>
    jsClampRound (((cf.data.getD (4*i) 0 : ℚ) + (cf.data.getD (4*i+1) 0 : ℚ)
      + (cf.data.getD (4*i+2) 0 : ℚ)) / 3)⟩

/-- `GreyscaleImage.updateFrom`: `_setSize` to the source dimensions, then copy
every sample (an out-of-range source read is `undefined`, stored as `0`). -/
def updateFrom (source : GreyscaleImage) : GreyscaleImage :=
  ⟨source.width, source.height, (List.range (source.width * source.height)).map
    fun i => source.data.getD i 0⟩

/-- `GreyscaleImage.subtract`: `data[i] = (data[i] - other.data[i]) + 128`,
stored clamped. If `other` is too short the read is `undefined`, the arithmetic
is `NaN`, and the store writes `0`. -/
def subtract (self other : GreyscaleImage) : GreyscaleImage :=
  ⟨self.width, self.height, (List.range self.data.length).map fun i =>
    match other.data[i]? with
    | some o => jsClampInt ((self.data.getD i 0 : ℤ) - o + 128)
    | none => 0⟩

/-- `GreyscaleImage.increaseContrast`: `data[i] += (data[i] - 128) * factor`,
stored clamped with round-to-nearest (the factor is a slider double). -/
def increaseContrast (self : GreyscaleImage) (factor : ℚ) : GreyscaleImage :=
  ⟨self.width, self.height, (List.range self.data.length).map fun i =>
    jsClampRound ((self.data.getD i 0 : ℚ)
      + ((self.data.getD i 0 : ℚ) - 128) * factor)⟩

/-- `GreyscaleImage.toBinary`:
`data[i] += (data[i] - whiteThreshold + 1) * 255`, stored clamped. -/
def toBinary (self : GreyscaleImage) (whiteThreshold : ℤ) : GreyscaleImage :=
  ⟨self.width, self.height, (List.range self.data.length).map fun i =>
    jsClampInt ((self.data.getD i 0 : ℤ)
      + ((self.data.getD i 0 : ℤ) - whiteThreshold + 1) * 255)⟩

/-- `GreyscaleImage.pixelSum`: `data.reduce((a, b) => a + b, 0)`. -/
def pixelSum (self : GreyscaleImage) : ℕ := self.data.sum

end GreyscaleImage

/-- A 1-D read `this.data[k]` at a possibly negative or too-large index:
`undefined` (here `none`) outside `[0, data.length)`. -/
def readPix (d : List ℕ) (k : ℤ) : Option ℕ :=
  if k < 0 then none else d[k.toNat]?

/-- The 3×3 neighbour sum of `discardOutliers` around linear index `i` of a
frame of width `w`: nine 1-D reads at offsets `-w-1 … w+1`; if any read is
out of bounds the JavaScript sum is `NaN`, modelled as `none`. -/
def neighbourSum (d : List ℕ) (w : ℕ) (i : ℕ) : Option ℕ :=
  (readPix d ((i : ℤ) - w - 1)).bind fun a =>
  (readPix d ((i : ℤ) - w)).bind fun b =>
  (readPix d ((i : ℤ) - w + 1)).bind fun c =>
  (readPix d ((i : ℤ) - 1)).bind fun e =>
  (readPix d (i : ℤ)).bind fun f =>
  (readPix d ((i : ℤ) + 1)).bind fun g =>
  (readPix d ((i : ℤ) + w - 1)).bind fun p =>
  (readPix d ((i : ℤ) + w)).bind fun q =>
  (readPix d ((i : ℤ) + w + 1)).map fun r =>
  a + b + c + e + f + g + p + q + r

/-- The source comparison `neighbourSum >= outlierThreshold * 255`, written by
cross-multiplying with the threshold's positive denominator (so that concrete
instances evaluate inside the kernel); `outlierCond_iff` proves it is exactly
the rational inequality `thr * 255 ≤ s`. -/
def outlierCond (thr : ℚ) (s : ℕ) : Prop := thr.num * 255 ≤ (s : ℤ) * thr.den

instance (thr : ℚ) (s : ℕ) : Decidable (outlierCond thr s) :=
  inferInstanceAs (Decidable (_ ≤ _))

/-- The value written at index `i` by the `discardOutliers` loop body:
`neighbourSum >= outlierThreshold * 255 ? 255 : 0`; a `NaN` sum fails the
comparison and writes `0`. -/
def outlierStep (thr : ℚ) (w : ℕ) (d : List ℕ) (i : ℕ) : ℕ :=
  match neighbourSum d w i with
  | some s => if outlierCond thr s then 255 else 0
  | none => 0

/-- The `discardOutliers` loop, in source order and in place: index `i` is
overwritten before indices `i+1, …` are read, exactly as in the source. -/
def outlierGo (thr : ℚ) (w : ℕ) : ℕ → ℕ → List ℕ → List ℕ
  | 0, _, d => d
  | fuel+1, i, d => outlierGo thr w fuel (i+1) (d.set i (outlierStep thr w d i))

/-- `GreyscaleImage.discardOutliers`: run the in-place loop over every index. -/
def GreyscaleImage.discardOutliers (self : GreyscaleImage) (outlierThreshold : ℚ) :
    GreyscaleImage :=
  ⟨self.width, self.height,
    outlierGo outlierThreshold self.width self.data.length 0 self.data⟩

/-- The per-pixel transition-counting state machine
(class `TransitionCountingImage extends GreyscaleImage`): `data` holds the
transition count, `nextExpected` the extremum that will increment it, and
`txTimer` the frames elapsed since the last transition — three parallel
`Uint8ClampedArray`s. -/
structure TransitionCountingImage where
  width : ℕ
  height : ℕ
  data : List ℕ
  nextExpected : List ℕ
  txTimer : List ℕ
deriving DecidableEq

/-- A freshly constructed `TransitionCountingImage`: 0×0, all arrays empty. -/
def TransitionCountingImage.init : TransitionCountingImage := ⟨0, 0, [], [], []⟩

/-- One pixel of `TransitionCountingImage.update`: from the source read
(`none` = `undefined`, matching neither `0`, `255` nor `nextExpected`) and the
pixel's `(count, nextExpected, txTimer)`, the new triple. Byte stores saturate:
`txTimer += 1` and `count += 1` clamp at 255, `255 - nextExpected` is stored
clamped. -/
def pixelStep (maxInterval : ℚ) (srcPixel : Option ℕ) (count ne t : ℕ) :
    ℕ × ℕ × ℕ :=
  if count = 0 then
    if srcPixel = some 0 then (1, 255, 0)
    else if srcPixel = some 255 then (1, 0, 0)
    else (count, ne, t)
  else
    let t1 := min (t + 1) 255
    if maxInterval < (t1 : ℚ) then (0, ne, t1)
    else if srcPixel = some ne then
      (min (count + 1) 255, jsClampInt (255 - (ne : ℤ)), 0)
    else (count, ne, t1)

/-- The `update` pixel loop over the three parallel arrays. -/
def tcGo (m : ℚ) (src : List ℕ) :
    ℕ → ℕ → List ℕ → List ℕ → List ℕ → List ℕ × List ℕ × List ℕ
  | 0, _, d, ne, t => (d, ne, t)
  | fuel+1, i, d, ne, t =>
    let r := pixelStep m src[i]? (d.getD i 0) (ne.getD i 0) (t.getD i 0)
    tcGo m src fuel (i+1) (d.set i r.1) (ne.set i r.2.1) (t.set i r.2.2)

/-- `TransitionCountingImage.update`: on a dimension change, `_setSize` (which
reallocates `data` zero-filled) and fresh zero `nextExpected` / `txTimer`
arrays of `data.length`; then the per-pixel loop. `maxInterval` comes from a
slider (`valueAsNumber`). -/
def TransitionCountingImage.update (self : TransitionCountingImage)
    (source : GreyscaleImage) (maxInterval : ℚ) : TransitionCountingImage :=
  let s :=
    if source.width ≠ self.width ∨ source.height ≠ self.height then
      let n := source.width * source.height
      (⟨source.width, source.height, List.replicate n 0, List.replicate n 0,
        List.replicate n 0⟩ : TransitionCountingImage)
    else self
  let r := tcGo maxInterval source.data s.data.length 0 s.data s.nextExpected s.txTimer
  ⟨s.width, s.height, r.1, r.2.1, r.2.2⟩

/-- The counter's own greyscale channel (`data`), as read when the counter is
used as the source of `updateFrom`. -/
def TransitionCountingImage.toImage (self : TransitionCountingImage) :
    GreyscaleImage := ⟨self.width, self.height, self.data⟩

/-- A run of the transition counter from a fresh instance: fold `update` over
a list of `(source frame, maxInterval)` tick inputs. -/
def runTC (inputs : List (GreyscaleImage × ℚ)) : TransitionCountingImage :=
  inputs.foldl (fun s p => s.update p.1 p.2) TransitionCountingImage.init

/-- Everything one `setInterval` tick of the pipeline writes (besides canvases
and the DOM, which only receive copies): the working buffers, the counter,
and the decision. The two input frames are carried through unchanged. -/
structure TickResult where
  cameraImage : GreyscaleImage
  prevCameraImage : GreyscaleImage
  diffImage : GreyscaleImage
  highContrastDiffImage : GreyscaleImage
  stateImage : TransitionCountingImage
  waveMap : GreyscaleImage
  filteredWaveMap : GreyscaleImage
  isWaving : Bool

/-- One tick of the `onload` pipeline, statement for statement:
`diffImage.updateFrom(cameraImage); diffImage.subtract(prevCameraImage);
highContrastDiffImage.updateFrom(diffImage); …increaseContrast(contrastFactor);
stateImage.update(highContrastDiffImage, maxInterval);
waveMap.updateFrom(stateImage); waveMap.toBinary(transitionCount);
filteredWaveMap.updateFrom(waveMap); waveMap.discardOutliers(outlierThreshold);
isWaving = waveMap.pixelSum() > 0`. The `debugDraw` calls only read. Each
working buffer is fully overwritten by its `updateFrom`, so the tick is a
function of exactly these arguments. -/
def pipelineTick (cameraImage prevCameraImage : GreyscaleImage)
    (contrastFactor maxInterval : ℚ) (transitionCount : ℤ)
    (outlierThreshold : ℚ) (stateImage : TransitionCountingImage) : TickResult :=
  let diffImage := (GreyscaleImage.updateFrom cameraImage).subtract prevCameraImage
  let highContrastDiffImage :=
    (GreyscaleImage.updateFrom diffImage).increaseContrast contrastFactor
  let stateImage1 := stateImage.update highContrastDiffImage maxInterval
  let waveMap := (GreyscaleImage.updateFrom stateImage1.toImage).toBinary transitionCount
  let filteredWaveMap := GreyscaleImage.updateFrom waveMap
  let waveMap1 := waveMap.discardOutliers outlierThreshold
  ⟨cameraImage, prevCameraImage, diffImage, highContrastDiffImage, stateImage1,
    waveMap1, filteredWaveMap, decide (0 < waveMap1.pixelSum)⟩

/-! ## Helper lemmas -/

lemma getD_set_self (l : List ℕ) (i v : ℕ) (h : i < l.length) :
    (l.set i v).getD i 0 = v := by
  simp [List.getD_eq_getElem?_getD, List.getElem?_set_self, h]

lemma getD_set_ne (l : List ℕ) (i j v : ℕ) (h : i ≠ j) :
    (l.set i v).getD j 0 = l.getD j 0 := by
  simp [List.getD_eq_getElem?_getD, List.getElem?_set_ne h]

lemma getD_map_range (f : ℕ → ℕ) (n i : ℕ) (h : i < n) :
    ((List.range n).map f).getD i 0 = f i := by
  simp [List.getD_eq_getElem?_getD, List.getElem?_map, List.getElem?_range h]

lemma jsClampInt_le (x : ℤ) : jsClampInt x ≤ 255 := by
  simp only [jsClampInt]; omega

lemma roundHalfEven_div3 (s : ℕ) : roundHalfEven ((s : ℚ) / 3) = (s + 1) / 3 := by
  obtain ⟨q, t, ht, rfl⟩ : ∃ q t, t < 3 ∧ s = 3 * q + t :=
    ⟨s / 3, s % 3, Nat.mod_lt _ (by norm_num), (Nat.div_add_mod s 3).symm⟩
  have hx : ((3 * q + t : ℕ) : ℚ) / 3 = (q : ℤ) + (t : ℚ) / 3 := by
    push_cast; ring
  rw [hx]
  interval_cases t
  · have h0 : ((q : ℤ) : ℚ) + (0 : ℕ) / 3 = ((q : ℤ) : ℚ) := by norm_num
    rw [roundHalfEven, h0]
    rw [Int.fract_intCast]
    norm_num
    omega
  · rw [roundHalfEven]
    have hf : Int.fract (((q : ℤ) : ℚ) + (1 : ℕ) / 3) = 1/3 := by
      rw [Int.fract_int_add]
      norm_num
    have hfl : ⌊((q : ℤ) : ℚ) + (1 : ℕ) / 3⌋ = q := by
      rw [Int.floor_int_add]
      norm_num
    rw [hf, hfl]
    norm_num
    omega
  · rw [roundHalfEven]
    have hf : Int.fract (((q : ℤ) : ℚ) + (2 : ℕ) / 3) = 2/3 := by
      rw [Int.fract_int_add]
      norm_num
    have hfl : ⌊((q : ℤ) : ℚ) + (2 : ℕ) / 3⌋ = q := by
      rw [Int.floor_int_add]
      norm_num
    rw [hf, hfl]
    norm_num
    omega

/-- The clamped round-to-nearest store of `s / 3` is `⌊(s + 1) / 3⌋` capped at
255; ties never occur because thirds are never half-integers. -/
lemma jsClampRound_div3 (s : ℕ) : jsClampRound ((s : ℚ) / 3) = min ((s + 1) / 3) 255 := by
  rw [jsClampRound, roundHalfEven_div3]
  omega

/-- The cross-multiplied outlier comparison is the plain rational one. -/
lemma outlierCond_iff (thr : ℚ) (s : ℕ) : outlierCond thr s ↔ thr * 255 ≤ (s : ℚ) := by
  have hd : (0 : ℚ) < (thr.den : ℚ) := by exact_mod_cast thr.pos
  rw [outlierCond]
  rw [show thr * 255 ≤ (s : ℚ) ↔ thr * 255 * (thr.den : ℚ) ≤ (s : ℚ) * (thr.den : ℚ) from
    (mul_le_mul_right hd).symm]
  rw [show thr * 255 * (thr.den : ℚ) = (thr.num : ℚ) * 255 by
    rw [mul_right_comm, Rat.mul_den_eq_num]]
  constructor
  · intro h; exact_mod_cast h
  · intro h; exact_mod_cast h

lemma bind_none_of {α β : Type} (o : Option α) (f : α → Option β)
    (h : ∀ a, f a = none) : o.bind f = none := by cases o <;> simp [h]

/-- In the first row the `i - w` neighbour read is at a negative index. -/
lemma neighbourSum_first_row (d : List ℕ) (w i : ℕ) (h : i < w) :
    neighbourSum d w i = none := by
  have h2 : readPix d ((i : ℤ) - w) = none := by
    rw [readPix, if_pos (by omega)]
  rw [neighbourSum]
  apply bind_none_of
  intro a
  rw [h2]
  rfl

/-- In the last row the `i + w` neighbour read is past the end of the buffer. -/
lemma neighbourSum_last_row (d : List ℕ) (w i : ℕ) (h : d.length ≤ i + w) :
    neighbourSum d w i = none := by
  have h2 : readPix d ((i : ℤ) + w) = none := by
    rw [readPix, if_neg (by omega)]
    apply List.getElem?_eq_none
    omega
  rw [neighbourSum]
  apply bind_none_of; intro a
  apply bind_none_of; intro b
  apply bind_none_of; intro c
  apply bind_none_of; intro e
  apply bind_none_of; intro f
  apply bind_none_of; intro g
  apply bind_none_of; intro p
  rw [h2]
  rfl

/-- A first- or last-row pixel gets written `0` by the loop body: its
neighbour sum is `NaN`, so the `>=` comparison is false, whatever the
buffer currently holds and whatever the threshold is. -/
lemma outlierStep_border (thr : ℚ) (w : ℕ) (d : List ℕ) (i : ℕ)
    (h : i < w ∨ d.length ≤ i + w) : outlierStep thr w d i = 0 := by
  rcases h with h | h
  · rw [outlierStep, neighbourSum_first_row d w i h]
  · rw [outlierStep, neighbourSum_last_row d w i h]

lemma outlierGo_length (thr : ℚ) (w : ℕ) :
    ∀ (fuel i : ℕ) (d : List ℕ), (outlierGo thr w fuel i d).length = d.length := by
  intro fuel
  induction fuel with
  | zero => intro i d; rfl
  | succ n ih => intro i d; rw [outlierGo, ih]; exact List.length_set ..

/-- Once the loop has passed a border pixel it holds `0`, and later iterations
never write to it again. -/
lemma outlierGo_border (thr : ℚ) (w len : ℕ) :
    ∀ (fuel i : ℕ) (d : List ℕ), d.length = len → fuel + i = len →
    (∀ j, j < i → (j < w ∨ len ≤ j + w) → d.getD j 0 = 0) →
    ∀ j, j < len → (j < w ∨ len ≤ j + w) → (outlierGo thr w fuel i d).getD j 0 = 0 := by
  intro fuel
  induction fuel with
  | zero =>
    intro i d hd hlen hinv j hj hb
    exact hinv j (by omega) hb
  | succ n ih =>
    intro i d hd hlen hinv j hj hb
    rw [outlierGo]
    apply ih (i + 1) _ (by rw [List.length_set, hd]) (by omega) _ j hj hb
    intro j2 hj2 hb2
    by_cases hji : i = j2
    · subst hji
      rw [getD_set_self _ _ _ (by omega),
        outlierStep_border thr w d i (by rw [hd]; exact hb2)]
    · rw [getD_set_ne _ _ _ _ hji]
      exact hinv j2 (by omega) hb2

/-! ## The claims -/

/-- C1: `toBinary(whiteThreshold)` is claimed to send every sample `>=
whiteThreshold` to 255 and every sample `< whiteThreshold` to 0, in particular
a sample equal to `whiteThreshold - 1` to 0. The code disagrees at exactly
that boundary: `data[i] += (data[i] - whiteThreshold + 1) * 255` adds `0 * 255`
when `data[i] = whiteThreshold - 1`, leaving the sample unchanged. On the
1×1 frame `[127]` with `whiteThreshold = 128` the result is `[127]`, not
`[0]` — the output of `toBinary` is not even binary there. -/
theorem C1_toBinary_boundary_stays :
    (GreyscaleImage.toBinary ⟨1, 1, [127]⟩ 128).data = [127] ∧ (127 : ℕ) ≠ 0 := by
  constructor
  · rfl
  · decide

/-- C2 counterexample: on the 3×3 frame whose centre (index 4) is the single
255 pixel, `discardOutliers(0.5)` leaves the centre at 255 rather than
suppressing it: the centre's own value already gives `neighbourSum = 255 ≥
0.5 * 255 = 127.5`. -/
theorem C2_isolated_pixel_survives :
    (GreyscaleImage.discardOutliers ⟨3, 3, [0, 0, 0, 0, 255, 0, 0, 0, 0]⟩
      (mkRat 1 2)).data.getD 4 0 ≠ 0 := by
  decide

/-- C2 amended: with `outlierThreshold = 0.5` an isolated interior 255 pixel
is NOT suppressed — its own value alone meets the `0.5 * 255` threshold, so it
stays 255 (on the 3×3 frame the eight border pixels read out-of-bounds
neighbours and become 0, leaving exactly the centre). A solid 3×3 block of 255
in the interior rows of a 5×5 frame does survive: every block pixel keeps 255
(the in-place pass also spreads 255 into the adjacent interior pixels of the
middle rows). -/
theorem C2_amended_filter_behaviour :
    (GreyscaleImage.discardOutliers ⟨3, 3, [0, 0, 0, 0, 255, 0, 0, 0, 0]⟩
      (mkRat 1 2)).data = [0, 0, 0, 0, 255, 0, 0, 0, 0] ∧
    (GreyscaleImage.discardOutliers
      ⟨5, 5, [0, 0, 0, 0, 0,
              0, 255, 255, 255, 0,
              0, 255, 255, 255, 0,
              0, 255, 255, 255, 0,
              0, 0, 0, 0, 0]⟩ (mkRat 1 2)).data =
      [0, 0, 0, 0, 0,
       0, 255, 255, 255, 255,
       255, 255, 255, 255, 255,
       255, 255, 255, 255, 0,
       0, 0, 0, 0, 0] := by
  constructor
  · decide
  · decide

/-- An all-zero frame of the given dimensions. -/
def zeroFrame (w h : ℕ) : GreyscaleImage := ⟨w, h, List.replicate (w * h) 0⟩

lemma subtract_getD_le (A B : GreyscaleImage) (i : ℕ) (h : i < A.data.length) :
    (A.subtract B).data.getD i 0 ≤ 255 := by
  show ((List.range A.data.length).map _).getD i 0 ≤ 255
  rw [getD_map_range _ _ _ h]
  rcases hB : B.data[i]? with _ | o
  · exact Nat.zero_le _
  · exact jsClampInt_le _

/-- C10: after `discardOutliers`, every pixel of the first and of the last row
is 0, whatever the frame previously held: the 3×3 neighbour sum of such a
pixel reads out of bounds (`undefined`), the sum is `NaN`, the `>=` test
fails, and `0` is written. -/
theorem C10_discardOutliers_zeroes_border_rows (img : GreyscaleImage) (thr : ℚ)
    (hthr : 0 < thr) (hw : 1 ≤ img.width) (hh : 2 ≤ img.height)
    (hwf : img.data.length = img.width * img.height) (i : ℕ)
    (hi : i < img.width ∨ (img.width * (img.height - 1) ≤ i ∧ i < img.data.length)) :
    (img.discardOutliers thr).data.getD i 0 = 0 := by
  have hlen : img.width * img.height = img.width * (img.height - 1) + img.width := by
    have h2 : img.height - 1 + 1 = img.height := by omega
    calc img.width * img.height = img.width * (img.height - 1 + 1) := by rw [h2]
    _ = img.width * (img.height - 1) + img.width := by ring
  have hwlen : img.width ≤ img.data.length := by
    rw [hwf]
    calc img.width = img.width * 1 := by ring
    _ ≤ img.width * img.height := Nat.mul_le_mul_left _ (by omega)
  have hb : i < img.width ∨ img.data.length ≤ i + img.width := by
    rcases hi with h | ⟨h1, h2⟩
    · exact Or.inl h
    · right; rw [hwf, hlen]; omega
  have hj : i < img.data.length := by
    rcases hi with h | ⟨h1, h2⟩
    · omega
    · exact h2
  show (outlierGo thr img.width img.data.length 0 img.data).getD i 0 = 0
  exact outlierGo_border thr img.width img.data.length img.data.length 0 img.data
    rfl (by omega) (fun j hj0 _ => absurd hj0 (Nat.not_lt_zero j)) i hj hb

/-- C10 witness: a concrete 1×2 frame with nonzero samples, threshold 1. -/
theorem C10_witness :
    (0 : ℚ) < 1 ∧ (1 : ℕ) ≤ 1 ∧ (2 : ℕ) ≤ 2 ∧
    (GreyscaleImage.discardOutliers ⟨1, 2, [7, 9]⟩ 1).data.getD 0 0 = 0 :=
  ⟨by decide, by decide, by decide,
    C10_discardOutliers_zeroes_border_rows ⟨1, 2, [7, 9]⟩ 1 (by decide) (by decide)
      (by decide) (by decide) 0 (Or.inl (by decide))⟩

/-- C5 counterexample: with `A = B` the 1×1 all-zero frame, `result =
subtract(A, B)` is `[128]`, and `subtract(result, zeroFrame)` turns it into
`[clamp(128 + 128)] = [255]` — the samples are changed, refuting the claimed
round-trip. -/
theorem C5_subtract_zero_frame_changes_samples :
    (GreyscaleImage.subtract (GreyscaleImage.subtract ⟨1, 1, [0]⟩ ⟨1, 1, [0]⟩)
        ⟨1, 1, [0]⟩).data
      ≠ (GreyscaleImage.subtract ⟨1, 1, [0]⟩ ⟨1, 1, [0]⟩).data := by
  decide

/-- C5 amended: `subtract(result, zeroFrame)` does not leave `result`
unchanged; it adds 128 to every sample with saturation, `result[i] ↦
min(result[i] + 128, 255)`, so a sample is left unchanged iff it is 255. -/
theorem C5_amended_subtract_zero_adds_128 (A B : GreyscaleImage)
    (hwf : A.data.length = A.width * A.height) (i : ℕ) (hi : i < A.data.length) :
    ((GreyscaleImage.subtract A B).subtract (zeroFrame A.width A.height)).data.getD i 0
        = min ((GreyscaleImage.subtract A B).data.getD i 0 + 128) 255 ∧
      (((GreyscaleImage.subtract A B).subtract (zeroFrame A.width A.height)).data.getD i 0
          = (GreyscaleImage.subtract A B).data.getD i 0
        ↔ (GreyscaleImage.subtract A B).data.getD i 0 = 255) := by
  have hlsub : (GreyscaleImage.subtract A B).data.length = A.data.length := by
    show ((List.range A.data.length).map _).length = A.data.length
    simp
  have hz : (zeroFrame A.width A.height).data[i]? = some 0 := by
    show (List.replicate (A.width * A.height) 0)[i]? = some 0
    rw [List.getElem?_replicate, if_pos (by omega)]
  have hmain :
      ((GreyscaleImage.subtract A B).subtract (zeroFrame A.width A.height)).data.getD i 0
        = min ((GreyscaleImage.subtract A B).data.getD i 0 + 128) 255 := by
    show ((List.range (GreyscaleImage.subtract A B).data.length).map _).getD i 0 = _
    rw [getD_map_range _ _ _ (by omega), hz]
    show jsClampInt (((GreyscaleImage.subtract A B).data.getD i 0 : ℤ) - (0 : ℕ) + 128) = _
    rw [jsClampInt]
    omega
  refine ⟨hmain, ?_⟩
  rw [hmain]
  have hle := subtract_getD_le A B i hi
  omega

/-- C5 amended witness: on the frame `[5]`, the round-trip sample is
`min(133, 255) = 133`, not `5`. -/
theorem C5_amended_witness :
    ((⟨1, 1, [5]⟩ : GreyscaleImage).data.length = 1 * 1) ∧
    ((GreyscaleImage.subtract (GreyscaleImage.subtract ⟨1, 1, [5]⟩ ⟨1, 1, [0]⟩)
        (zeroFrame 1 1)).data.getD 0 0
      = min ((GreyscaleImage.subtract ⟨1, 1, [5]⟩ ⟨1, 1, [0]⟩).data.getD 0 0 + 128) 255) :=
  ⟨by decide,
    (C5_amended_subtract_zero_adds_128 ⟨1, 1, [5]⟩ ⟨1, 1, [0]⟩ (by decide) 0 (by decide)).1⟩

/-- C6 counterexample: on the single pixel `(R, G, B) = (0, 2, 3)` the code
stores the clamped-array rounding of `5 / 3`, which is 2, not the integer
division `⌊5 / 3⌋ = 1` the claim states. -/
theorem C6_read_rounds_instead_of_flooring :
    (GreyscaleImage.read ⟨1, 1, [0, 2, 3, 0]⟩).data.getD 0 0 ≠ (0 + 2 + 3) / 3 := by
  have h : (GreyscaleImage.read ⟨1, 1, [0, 2, 3, 0]⟩).data.getD 0 0 = 2 := by
    show jsClampRound ((((0 : ℕ) : ℚ) + ((2 : ℕ) : ℚ) + ((3 : ℕ) : ℚ)) / 3) = 2
    rw [show (((0 : ℕ) : ℚ) + ((2 : ℕ) : ℚ) + ((3 : ℕ) : ℚ)) = ((5 : ℕ) : ℚ) by
      push_cast; norm_num]
    rw [jsClampRound_div3]
    decide
  rw [h]
  decide

/-- C6 amended: `read` sets each sample to the nearest integer to
`(R + G + B) / 3` (ties cannot occur for thirds), that is to
`min(⌊(R + G + B + 1) / 3⌋, 255)`; for byte channels the `min` never bites.
Alpha is ignored. -/
theorem C6_amended_read_rounds_to_nearest (cf : ColorFrame) (i : ℕ)
    (hi : i < cf.width * cf.height) :
    (GreyscaleImage.read cf).data.getD i 0
      = min ((cf.data.getD (4*i) 0 + cf.data.getD (4*i+1) 0
          + cf.data.getD (4*i+2) 0 + 1) / 3) 255 := by
  show ((List.range (cf.width * cf.height)).map _).getD i 0 = _
  rw [getD_map_range _ _ _ hi]
  show jsClampRound _ = _
  rw [show ((cf.data.getD (4*i) 0 : ℚ) + (cf.data.getD (4*i+1) 0 : ℚ)
        + (cf.data.getD (4*i+2) 0 : ℚ))
      = ((cf.data.getD (4*i) 0 + cf.data.getD (4*i+1) 0
          + cf.data.getD (4*i+2) 0 : ℕ) : ℚ) by push_cast; ring]
  rw [jsClampRound_div3]

/-- C6 amended witness: pixel `(10, 20, 30)` gives `min(61 / 3, 255) = 20`. -/
theorem C6_amended_witness :
    (0 < 1 * 1) ∧
    ((GreyscaleImage.read ⟨1, 1, [10, 20, 30, 0]⟩).data.getD 0 0
      = min ((10 + 20 + 30 + 1) / 3) 255) := by
  refine ⟨by decide, ?_⟩
  have h := C6_amended_read_rounds_to_nearest ⟨1, 1, [10, 20, 30, 0]⟩ 0 (by decide)
  exact h

-- unfolding helper
lemma tcGo_succ (m : ℚ) (src : List ℕ) (n i : ℕ) (d ne t : List ℕ) :
    tcGo m src (n+1) i d ne t
      = tcGo m src n (i+1)
          (d.set i (pixelStep m src[i]? (d.getD i 0) (ne.getD i 0) (t.getD i 0)).1)
          (ne.set i (pixelStep m src[i]? (d.getD i 0) (ne.getD i 0) (t.getD i 0)).2.1)
          (t.set i (pixelStep m src[i]? (d.getD i 0) (ne.getD i 0) (t.getD i 0)).2.2) := rfl

lemma tcGo_length (m : ℚ) (src : List ℕ) :
    ∀ (fuel i : ℕ) (d ne t : List ℕ),
      ((tcGo m src fuel i d ne t).1.length = d.length)
      ∧ ((tcGo m src fuel i d ne t).2.1.length = ne.length)
      ∧ ((tcGo m src fuel i d ne t).2.2.length = t.length) := by
  intro fuel
  induction fuel with
  | zero => intro i d ne t; exact ⟨rfl, rfl, rfl⟩
  | succ n ih =>
    intro i d ne t
    rw [tcGo_succ]
    obtain ⟨h1, h2, h3⟩ := ih (i+1)
      (d.set i (pixelStep m src[i]? (d.getD i 0) (ne.getD i 0) (t.getD i 0)).1)
      (ne.set i (pixelStep m src[i]? (d.getD i 0) (ne.getD i 0) (t.getD i 0)).2.1)
      (t.set i (pixelStep m src[i]? (d.getD i 0) (ne.getD i 0) (t.getD i 0)).2.2)
    rw [List.length_set] at h1
    rw [List.length_set] at h2
    rw [List.length_set] at h3
    exact ⟨h1, h2, h3⟩

lemma tcGo_getD_lt (m : ℚ) (src : List ℕ) :
    ∀ (fuel i : ℕ) (d ne t : List ℕ) (j : ℕ), j < i →
      ((tcGo m src fuel i d ne t).1.getD j 0 = d.getD j 0)
      ∧ ((tcGo m src fuel i d ne t).2.1.getD j 0 = ne.getD j 0)
      ∧ ((tcGo m src fuel i d ne t).2.2.getD j 0 = t.getD j 0) := by
  intro fuel
  induction fuel with
  | zero => intro i d ne t j hj; exact ⟨rfl, rfl, rfl⟩
  | succ n ih =>
    intro i d ne t j hj
    rw [tcGo_succ]
    obtain ⟨h1, h2, h3⟩ := ih (i+1)
      (d.set i (pixelStep m src[i]? (d.getD i 0) (ne.getD i 0) (t.getD i 0)).1)
      (ne.set i (pixelStep m src[i]? (d.getD i 0) (ne.getD i 0) (t.getD i 0)).2.1)
      (t.set i (pixelStep m src[i]? (d.getD i 0) (ne.getD i 0) (t.getD i 0)).2.2)
      j (by omega)
    rw [getD_set_ne _ _ _ _ (by omega)] at h1
    rw [getD_set_ne _ _ _ _ (by omega)] at h2
    rw [getD_set_ne _ _ _ _ (by omega)] at h3
    exact ⟨h1, h2, h3⟩

lemma tcGo_getD_eq (m : ℚ) (src : List ℕ) :
    ∀ (fuel i : ℕ) (d ne t : List ℕ) (j : ℕ), i ≤ j → j < i + fuel →
      j < d.length → j < ne.length → j < t.length →
      ((tcGo m src fuel i d ne t).1.getD j 0
          = (pixelStep m src[j]? (d.getD j 0) (ne.getD j 0) (t.getD j 0)).1)
      ∧ ((tcGo m src fuel i d ne t).2.1.getD j 0
          = (pixelStep m src[j]? (d.getD j 0) (ne.getD j 0) (t.getD j 0)).2.1)
      ∧ ((tcGo m src fuel i d ne t).2.2.getD j 0
          = (pixelStep m src[j]? (d.getD j 0) (ne.getD j 0) (t.getD j 0)).2.2) := by
  intro fuel
  induction fuel with
  | zero => intro i d ne t j h1 h2; omega
  | succ n ih =>
    intro i d ne t j hij hlt hd hne ht
    by_cases hji : j = i
    · subst hji
      rw [tcGo_succ]
      obtain ⟨h1, h2, h3⟩ := tcGo_getD_lt m src n (j+1)
        (d.set j (pixelStep m src[j]? (d.getD j 0) (ne.getD j 0) (t.getD j 0)).1)
        (ne.set j (pixelStep m src[j]? (d.getD j 0) (ne.getD j 0) (t.getD j 0)).2.1)
        (t.set j (pixelStep m src[j]? (d.getD j 0) (ne.getD j 0) (t.getD j 0)).2.2)
        j (by omega)
      rw [getD_set_self _ _ _ hd] at h1
      rw [getD_set_self _ _ _ hne] at h2
      rw [getD_set_self _ _ _ ht] at h3
      exact ⟨h1, h2, h3⟩
    · rw [tcGo_succ]
      obtain ⟨h1, h2, h3⟩ := ih (i+1)
        (d.set i (pixelStep m src[i]? (d.getD i 0) (ne.getD i 0) (t.getD i 0)).1)
        (ne.set i (pixelStep m src[i]? (d.getD i 0) (ne.getD i 0) (t.getD i 0)).2.1)
        (t.set i (pixelStep m src[i]? (d.getD i 0) (ne.getD i 0) (t.getD i 0)).2.2)
        j (by omega) (by omega) (by rw [List.length_set]; exact hd)
        (by rw [List.length_set]; exact hne) (by rw [List.length_set]; exact ht)
      rw [getD_set_ne _ _ _ _ (by omega), getD_set_ne _ _ _ _ (by omega),
        getD_set_ne _ _ _ _ (by omega)] at h1
      rw [getD_set_ne _ _ _ _ (by omega), getD_set_ne _ _ _ _ (by omega),
        getD_set_ne _ _ _ _ (by omega)] at h2
      rw [getD_set_ne _ _ _ _ (by omega), getD_set_ne _ _ _ _ (by omega),
        getD_set_ne _ _ _ _ (by omega)] at h3
      exact ⟨h1, h2, h3⟩

lemma update_of_eq_dims (s : TransitionCountingImage) (source : GreyscaleImage)
    (m : ℚ) (hw : source.width = s.width) (hh : source.height = s.height) :
    s.update source m
      = ⟨s.width, s.height,
          (tcGo m source.data s.data.length 0 s.data s.nextExpected s.txTimer).1,
          (tcGo m source.data s.data.length 0 s.data s.nextExpected s.txTimer).2.1,
          (tcGo m source.data s.data.length 0 s.data s.nextExpected s.txTimer).2.2⟩ := by
  rw [TransitionCountingImage.update]
  simp only []
  rw [if_neg (by push_neg; exact ⟨hw, hh⟩)]

lemma update_of_ne_dims (s : TransitionCountingImage) (source : GreyscaleImage)
    (m : ℚ) (hc : source.width ≠ s.width ∨ source.height ≠ s.height) :
    s.update source m
      = ⟨source.width, source.height,
          (tcGo m source.data (List.replicate (source.width * source.height) (0:ℕ)).length 0
            (List.replicate (source.width * source.height) 0)
            (List.replicate (source.width * source.height) 0)
            (List.replicate (source.width * source.height) 0)).1,
          (tcGo m source.data (List.replicate (source.width * source.height) (0:ℕ)).length 0
            (List.replicate (source.width * source.height) 0)
            (List.replicate (source.width * source.height) 0)
            (List.replicate (source.width * source.height) 0)).2.1,
          (tcGo m source.data (List.replicate (source.width * source.height) (0:ℕ)).length 0
            (List.replicate (source.width * source.height) 0)
            (List.replicate (source.width * source.height) 0)
            (List.replicate (source.width * source.height) 0)).2.2⟩ := by
  rw [TransitionCountingImage.update]
  simp only []
  rw [if_pos hc]

lemma getD_replicate (n i : ℕ) : (List.replicate n (0:ℕ)).getD i 0 = 0 := by
  simp only [List.getD_eq_getElem?_getD, List.getElem?_replicate]
  split <;> rfl

lemma getD_oob (l : List ℕ) (i : ℕ) (h : l.length ≤ i) : l.getD i 0 = 0 := by
  simp [List.getD_eq_getElem?_getD, List.getElem?_eq_none h]

lemma pixelStep_ne_binary (m : ℚ) (src : Option ℕ) (c ne t : ℕ)
    (h : 0 < c → ne = 0 ∨ ne = 255) :
    0 < (pixelStep m src c ne t).1
      → (pixelStep m src c ne t).2.1 = 0 ∨ (pixelStep m src c ne t).2.1 = 255 := by
  unfold pixelStep
  dsimp only
  split_ifs with h1 h2 h3 h4 h5 <;> dsimp only <;> intro hpos <;> try omega
  all_goals {
    have hne := h (by omega)
    simp only [jsClampInt]
    omega
  }

lemma pixelStep_le (m : ℚ) (src : Option ℕ) (c ne t : ℕ) (hc : c ≤ 255) :
    (pixelStep m src c ne t).1 ≤ 255 := by
  unfold pixelStep
  dsimp only
  split_ifs <;> dsimp only <;> omega

lemma pixelStep_mono (m : ℚ) (src : Option ℕ) (c ne t : ℕ) (hc : c ≤ 255)
    (hm : 255 ≤ m) : c ≤ (pixelStep m src c ne t).1 := by
  unfold pixelStep
  dsimp only
  split_ifs with h1 h2 h3 h4 <;> dsimp only <;> try omega
  all_goals {
    exfalso
    have hle : (((t + 1) ⊓ 255 : ℕ) : ℚ) ≤ 255 := by
      have hmin : ((t + 1) ⊓ 255 : ℕ) ≤ 255 := min_le_right _ _
      calc (((t + 1) ⊓ 255 : ℕ) : ℚ) ≤ ((255 : ℕ) : ℚ) := by exact_mod_cast hmin
      _ = 255 := by norm_num
    linarith
  }

lemma tcGo_wf_inv (m : ℚ) (src : List ℕ) (d ne t : List ℕ)
    (hne : ne.length = d.length) (ht : t.length = d.length)
    (hinv : ∀ i, 0 < d.getD i 0 → ne.getD i 0 = 0 ∨ ne.getD i 0 = 255) :
    ∀ i, 0 < (tcGo m src d.length 0 d ne t).1.getD i 0 →
      (tcGo m src d.length 0 d ne t).2.1.getD i 0 = 0
        ∨ (tcGo m src d.length 0 d ne t).2.1.getD i 0 = 255 := by
  have hlen := tcGo_length m src d.length 0 d ne t
  intro i hpos
  rcases lt_or_le i d.length with hi | hi
  · obtain ⟨h1, h2, h3⟩ := tcGo_getD_eq m src d.length 0 d ne t i (by omega)
      (by omega) hi (by omega) (by omega)
    rw [h2]
    rw [h1] at hpos
    exact pixelStep_ne_binary m src[i]? _ _ _ (hinv i) hpos
  · rw [getD_oob _ _ (by rw [hlen.1]; exact hi)] at hpos
    omega

lemma update_wf_inv (s : TransitionCountingImage) (source : GreyscaleImage) (m : ℚ)
    (hne : s.nextExpected.length = s.data.length)
    (ht : s.txTimer.length = s.data.length)
    (hinv : ∀ i, 0 < s.data.getD i 0 →
      s.nextExpected.getD i 0 = 0 ∨ s.nextExpected.getD i 0 = 255) :
    ((s.update source m).nextExpected.length = (s.update source m).data.length
      ∧ (s.update source m).txTimer.length = (s.update source m).data.length)
    ∧ ∀ i, 0 < (s.update source m).data.getD i 0 →
        (s.update source m).nextExpected.getD i 0 = 0
          ∨ (s.update source m).nextExpected.getD i 0 = 255 := by
  by_cases hc : source.width ≠ s.width ∨ source.height ≠ s.height
  · rw [update_of_ne_dims s source m hc]
    set n := source.width * source.height with hn
    have hlen := tcGo_length m source.data (List.replicate n (0:ℕ)).length 0
      (List.replicate n 0) (List.replicate n 0) (List.replicate n 0)
    refine ⟨⟨by rw [hlen.2.1, hlen.1], by rw [hlen.2.2, hlen.1]⟩, ?_⟩
    exact tcGo_wf_inv m source.data (List.replicate n 0) (List.replicate n 0)
      (List.replicate n 0) rfl rfl
      (fun i hpos => absurd hpos (by rw [getD_replicate]; omega))
  · rw [update_of_eq_dims s source m (by push_neg at hc; exact hc.1)
      (by push_neg at hc; exact hc.2)]
    have hlen := tcGo_length m source.data s.data.length 0 s.data s.nextExpected s.txTimer
    refine ⟨⟨by rw [hlen.2.1, hlen.1, hne], by rw [hlen.2.2, hlen.1, ht]⟩, ?_⟩
    exact tcGo_wf_inv m source.data s.data s.nextExpected s.txTimer hne ht hinv

lemma foldl_update_wf_inv (l : List (GreyscaleImage × ℚ)) :
    ∀ s : TransitionCountingImage,
      s.nextExpected.length = s.data.length → s.txTimer.length = s.data.length →
      (∀ i, 0 < s.data.getD i 0 →
        s.nextExpected.getD i 0 = 0 ∨ s.nextExpected.getD i 0 = 255) →
      ((l.foldl (fun s p => s.update p.1 p.2) s).nextExpected.length
          = (l.foldl (fun s p => s.update p.1 p.2) s).data.length
        ∧ (l.foldl (fun s p => s.update p.1 p.2) s).txTimer.length
          = (l.foldl (fun s p => s.update p.1 p.2) s).data.length)
      ∧ ∀ i, 0 < (l.foldl (fun s p => s.update p.1 p.2) s).data.getD i 0 →
          (l.foldl (fun s p => s.update p.1 p.2) s).nextExpected.getD i 0 = 0
            ∨ (l.foldl (fun s p => s.update p.1 p.2) s).nextExpected.getD i 0 = 255 := by
  induction l with
  | nil => intro s h1 h2 h3; exact ⟨⟨h1, h2⟩, h3⟩
  | cons hd tl ih =>
    intro s h1 h2 h3
    obtain ⟨⟨g1, g2⟩, g3⟩ := update_wf_inv s hd.1 hd.2 h1 h2 h3
    exact ih (s.update hd.1 hd.2) g1 g2 g3

lemma update_accepted_timer (s : TransitionCountingImage) (source : GreyscaleImage)
    (m : ℚ) (hw : source.width = s.width) (hh : source.height = s.height)
    (hne : s.nextExpected.length = s.data.length)
    (ht : s.txTimer.length = s.data.length)
    (i : ℕ) (hi : i < s.data.length)
    (hact : 0 < s.data.getD i 0)
    (hwithin : ¬ (m < ((min (s.txTimer.getD i 0 + 1) 255 : ℕ) : ℚ)))
    (hmatch : source.data[i]? = some (s.nextExpected.getD i 0)) :
    (s.update source m).txTimer.getD i 0 = 0 := by
  rw [update_of_eq_dims s source m hw hh]
  obtain ⟨h1, h2, h3⟩ := tcGo_getD_eq m source.data s.data.length 0 s.data
    s.nextExpected s.txTimer i (by omega) (by omega) hi (by omega) (by omega)
  show (tcGo m source.data s.data.length 0 s.data s.nextExpected s.txTimer).2.2.getD i 0 = 0
  rw [h3]
  unfold pixelStep
  dsimp only
  rw [if_neg (by omega : ¬ s.data.getD i 0 = 0), if_neg hwithin, if_pos hmatch]

/-- C7: starting from the freshly constructed all-zero counter, after any
sequence of `update` calls every pixel with `count > 0` has `nextExpected`
exactly 0 or exactly 255; and whenever an update accepts a transition at a
pixel (count positive, incremented timer within `maxInterval`, source sample
equal to `nextExpected`), that pixel's `txTimer` is 0 afterwards. -/
theorem C7_nextExpected_binary_and_timer_resets (inputs : List (GreyscaleImage × ℚ)) :
    (∀ i, 0 < (runTC inputs).data.getD i 0 →
      (runTC inputs).nextExpected.getD i 0 = 0
        ∨ (runTC inputs).nextExpected.getD i 0 = 255)
    ∧ ∀ (source : GreyscaleImage) (mi : ℚ) (i : ℕ),
        source.width = (runTC inputs).width →
        source.height = (runTC inputs).height →
        i < (runTC inputs).data.length →
        0 < (runTC inputs).data.getD i 0 →
        ¬ (mi < ((min ((runTC inputs).txTimer.getD i 0 + 1) 255 : ℕ) : ℚ)) →
        source.data[i]? = some ((runTC inputs).nextExpected.getD i 0) →
        ((runTC inputs).update source mi).txTimer.getD i 0 = 0 := by
  obtain ⟨⟨h1, h2⟩, h3⟩ := foldl_update_wf_inv inputs TransitionCountingImage.init
    rfl rfl (fun i hpos => absurd hpos (by simp [TransitionCountingImage.init, List.getD]))
  refine ⟨h3, ?_⟩
  intro source mi i hw hh hi hact hwithin hmatch
  exact update_accepted_timer (runTC inputs) source mi hw hh h1 h2 i hi hact hwithin hmatch

/-- C7 witness: one tick on the 1×1 zero frame activates the pixel
(`nextExpected = 255`), and a following matching `255` tick resets the timer. -/
theorem C7_witness :
    ((runTC [(⟨1, 1, [0]⟩, (10 : ℚ))]).nextExpected.getD 0 0 = 0
        ∨ (runTC [(⟨1, 1, [0]⟩, (10 : ℚ))]).nextExpected.getD 0 0 = 255)
    ∧ ((runTC [(⟨1, 1, [0]⟩, (10 : ℚ))]).update ⟨1, 1, [255]⟩ 10).txTimer.getD 0 0 = 0 :=
  ⟨(C7_nextExpected_binary_and_timer_resets [(⟨1, 1, [0]⟩, (10 : ℚ))]).1 0 (by decide),
   (C7_nextExpected_binary_and_timer_resets [(⟨1, 1, [0]⟩, (10 : ℚ))]).2 ⟨1, 1, [255]⟩
     10 0 (by decide) (by decide) (by decide) (by decide) (by decide) (by decide)⟩

lemma update_mono_all (s : TransitionCountingImage) (source : GreyscaleImage)
    (m : ℚ) (hm : 255 ≤ m) (hw : source.width = s.width) (hh : source.height = s.height)
    (hne : s.nextExpected.length = s.data.length)
    (ht : s.txTimer.length = s.data.length)
    (hb : ∀ j, j < s.data.length → s.data.getD j 0 ≤ 255) :
    (∀ i, s.data.getD i 0 ≤ (s.update source m).data.getD i 0)
    ∧ (s.update source m).data.length = s.data.length
    ∧ (s.update source m).nextExpected.length = (s.update source m).data.length
    ∧ (s.update source m).txTimer.length = (s.update source m).data.length
    ∧ (∀ j, j < (s.update source m).data.length → (s.update source m).data.getD j 0 ≤ 255)
    ∧ (s.update source m).width = s.width ∧ (s.update source m).height = s.height := by
  rw [update_of_eq_dims s source m hw hh]
  have hlen := tcGo_length m source.data s.data.length 0 s.data s.nextExpected s.txTimer
  have hval : ∀ j, j < s.data.length →
      (tcGo m source.data s.data.length 0 s.data s.nextExpected s.txTimer).1.getD j 0
        = (pixelStep m source.data[j]? (s.data.getD j 0) (s.nextExpected.getD j 0)
            (s.txTimer.getD j 0)).1 := by
    intro j hj
    exact (tcGo_getD_eq m source.data s.data.length 0 s.data s.nextExpected s.txTimer
      j (by omega) (by omega) hj (by omega) (by omega)).1
  refine ⟨?_, hlen.1, by rw [hlen.2.1, hlen.1, hne], by rw [hlen.2.2, hlen.1, ht], ?_, rfl, rfl⟩
  · intro i
    rcases lt_or_le i s.data.length with hi | hi
    · rw [hval i hi]
      exact pixelStep_mono m source.data[i]? _ _ _ (hb i hi) hm
    · rw [getD_oob s.data i hi, getD_oob _ i (by rw [hlen.1]; exact hi)]
  · intro j hj
    rw [hlen.1] at hj
    rw [hval j hj]
    exact pixelStep_le m source.data[j]? _ _ _ (hb j hj)

/-- C9: with `maxInterval ≥ 255` the saturating byte `txTimer` (which the
update clamps at 255) can never exceed `maxInterval`, so the staleness reset
never fires: over any sequence of same-sized updates a pixel's count never
decreases, and an `Active` pixel (`count > 0`) stays `Active`. -/
theorem C9_active_pixel_never_idles_for_large_maxInterval
    (s : TransitionCountingImage) (m : ℚ) (hm : 255 ≤ m)
    (srcs : List GreyscaleImage)
    (hd : ∀ g ∈ srcs, g.width = s.width ∧ g.height = s.height)
    (hne : s.nextExpected.length = s.data.length)
    (ht : s.txTimer.length = s.data.length)
    (hb : ∀ j, j < s.data.length → s.data.getD j 0 ≤ 255)
    (i : ℕ) :
    s.data.getD i 0 ≤ (srcs.foldl (fun st g => st.update g m) s).data.getD i 0
    ∧ (0 < s.data.getD i 0 →
        0 < (srcs.foldl (fun st g => st.update g m) s).data.getD i 0) := by
  suffices hmain : ∀ (l : List GreyscaleImage) (st : TransitionCountingImage),
      (∀ g ∈ l, g.width = st.width ∧ g.height = st.height) →
      st.nextExpected.length = st.data.length →
      st.txTimer.length = st.data.length →
      (∀ j, j < st.data.length → st.data.getD j 0 ≤ 255) →
      ∀ k, st.data.getD k 0 ≤ (l.foldl (fun st g => st.update g m) st).data.getD k 0 by
    have h := hmain srcs s hd hne ht hb i
    exact ⟨h, fun hpos => lt_of_lt_of_le hpos h⟩
  intro l
  induction l with
  | nil => intro st h1 h2 h3 h4 k; exact le_refl _
  | cons g tl ih =>
    intro st h1 h2 h3 h4 k
    obtain ⟨m1, m2, m3, m4, m5, m6, m7⟩ := update_mono_all st g m hm
      (h1 g (by simp)).1 (h1 g (by simp)).2 h2 h3 h4
    calc st.data.getD k 0 ≤ (st.update g m).data.getD k 0 := m1 k
    _ ≤ ((tl.foldl (fun st g => st.update g m) (st.update g m))).data.getD k 0 := by
        apply ih (st.update g m) ?_ m3 m4 ?_ k
        · intro g2 hg2
          rw [m6, m7]
          exact h1 g2 (by simp [hg2])
        · rw [m2]
          intro j hj
          exact m5 j (by rw [m2]; exact hj)

/-- C9 witness: an active 1×1 counter with count 3 fed two same-sized frames
at `maxInterval = 255` keeps its count at least 3 and stays active. -/
theorem C9_witness :
    (⟨1, 1, [3], [255], [0]⟩ : TransitionCountingImage).data.getD 0 0
        ≤ (([⟨1, 1, [255]⟩, ⟨1, 1, [0]⟩] : List GreyscaleImage).foldl
            (fun (st : TransitionCountingImage) (g : GreyscaleImage) => st.update g 255)
            ⟨1, 1, [3], [255], [0]⟩).data.getD 0 0
    ∧ (0 < (⟨1, 1, [3], [255], [0]⟩ : TransitionCountingImage).data.getD 0 0 →
        0 < (([⟨1, 1, [255]⟩, ⟨1, 1, [0]⟩] : List GreyscaleImage).foldl
            (fun (st : TransitionCountingImage) (g : GreyscaleImage) => st.update g 255)
            ⟨1, 1, [3], [255], [0]⟩).data.getD 0 0) :=
  C9_active_pixel_never_idles_for_large_maxInterval ⟨1, 1, [3], [255], [0]⟩ 255
    (by decide) [⟨1, 1, [255]⟩, ⟨1, 1, [0]⟩] (by decide) (by decide) (by decide)
    (by decide) 0

/-- C3: a single pixel fed `0` once and then the same value `0` for 11 more
ticks at `maxInterval = 10` is still active (count 1) after the 10th
non-matching tick, is reset to 0 (Idle) by the staleness timer on the 11th,
and on the tick that finally delivers `255` it re-enters Active with count
exactly 1. -/
theorem C3_staleness_reset_then_reactivation :
    ((runTC ((⟨1, 1, [0]⟩, (10 : ℚ)) ::
        List.replicate 10 ((⟨1, 1, [0]⟩ : GreyscaleImage), (10 : ℚ)))).data.getD 0 0 = 1)
    ∧ ((runTC ((⟨1, 1, [0]⟩, (10 : ℚ)) ::
        List.replicate 11 ((⟨1, 1, [0]⟩ : GreyscaleImage), (10 : ℚ)))).data.getD 0 0 = 0)
    ∧ ((runTC (((⟨1, 1, [0]⟩, (10 : ℚ)) ::
        List.replicate 11 ((⟨1, 1, [0]⟩ : GreyscaleImage), (10 : ℚ)))
          ++ [(⟨1, 1, [255]⟩, (10 : ℚ))])).data.getD 0 0 = 1) := by
  refine ⟨by decide, by decide, by decide⟩

/-- C4: a single pixel fed `0, 255, 0, 255, 0` at `maxInterval = 10` has
count `1, 2, 3, 4, 5` after the successive calls — one increment per
alternation, starting at 1 on the first extremum. -/
theorem C4_alternating_input_counts_up :
    ((runTC [(⟨1, 1, [0]⟩, (10 : ℚ))]).data.getD 0 0 = 1)
    ∧ ((runTC [(⟨1, 1, [0]⟩, (10 : ℚ)), (⟨1, 1, [255]⟩, (10 : ℚ))]).data.getD 0 0 = 2)
    ∧ ((runTC [(⟨1, 1, [0]⟩, (10 : ℚ)), (⟨1, 1, [255]⟩, (10 : ℚ)),
        (⟨1, 1, [0]⟩, (10 : ℚ))]).data.getD 0 0 = 3)
    ∧ ((runTC [(⟨1, 1, [0]⟩, (10 : ℚ)), (⟨1, 1, [255]⟩, (10 : ℚ)),
        (⟨1, 1, [0]⟩, (10 : ℚ)), (⟨1, 1, [255]⟩, (10 : ℚ))]).data.getD 0 0 = 4)
    ∧ ((runTC [(⟨1, 1, [0]⟩, (10 : ℚ)), (⟨1, 1, [255]⟩, (10 : ℚ)),
        (⟨1, 1, [0]⟩, (10 : ℚ)), (⟨1, 1, [255]⟩, (10 : ℚ)),
        (⟨1, 1, [0]⟩, (10 : ℚ))]).data.getD 0 0 = 5) := by
  refine ⟨by decide, by decide, by decide, by decide, by decide⟩

/-- C8: one pipeline tick, given the current and previous frames, the four
numeric parameters and the prior counter state, is the total function
`pipelineTick` of exactly those inputs (each buffer is fully overwritten via
`updateFrom` before use, so no other state can flow in); it returns the two
input frames untouched, and its decision is `waveMap.pixelSum() > 0` computed
from its own filtered buffer. -/
theorem C8_pipeline_pure_and_preserves_inputs (cam prev : GreyscaleImage)
    (contrastFactor maxInterval : ℚ) (transitionCount : ℤ) (outlierThreshold : ℚ)
    (st : TransitionCountingImage) :
    (pipelineTick cam prev contrastFactor maxInterval transitionCount
        outlierThreshold st).cameraImage = cam
    ∧ (pipelineTick cam prev contrastFactor maxInterval transitionCount
        outlierThreshold st).prevCameraImage = prev
    ∧ (pipelineTick cam prev contrastFactor maxInterval transitionCount
        outlierThreshold st).isWaving
      = decide (0 < (pipelineTick cam prev contrastFactor maxInterval transitionCount
          outlierThreshold st).waveMap.pixelSum) :=
  ⟨rfl, rfl, rfl⟩
